import Mathlib

/-!
Verification of the RAGFlow MCP server retrieval pipeline (`mcp_app.py`).

The development shallowly embeds the Python source: JSON values are an
inductive `Json`, Python dicts are association lists (insertion order is
significant, matching CPython), the `LRUCache` class is a list of
`(key, value, expiry)` triples in least-recently-touched-first order,
and each connector coroutine becomes a pure function over an explicit
backend environment, a cache state and a wall-clock instant, returning
its result together with the mutated caches and the list of HTTP calls
it issued.  Exceptions are an `Except String` layer; `except` blocks in
the source become `match` on that layer.
-/

set_option autoImplicit false

namespace RagflowMCP

/-- JSON values as decoded by `response.json()`.  Objects keep field order
(CPython dicts are insertion ordered); numbers are integers, which covers
every numeric field the pipeline computes with. -/
inductive Json where
  | null
  | bool (b : Bool)
  | num (n : Int)
  | str (s : String)
  | arr (xs : List Json)
  | obj (fields : List (String × Json))
  deriving Repr

mutual
/-- Structural (Python `==` style) equality test for JSON values. -/
def Json.beq : Json → Json → Bool
  | .null, .null => true
  | .bool a, .bool b => a == b
  | .num a, .num b => a == b
  | .str a, .str b => a == b
  | .arr xs, .arr ys => Json.beqList xs ys
  | .obj xs, .obj ys => Json.beqFields xs ys
  | _, _ => false

def Json.beqList : List Json → List Json → Bool
  | [], [] => true
  | x :: xs, y :: ys => Json.beq x y && Json.beqList xs ys
  | _, _ => false

def Json.beqFields : List (String × Json) → List (String × Json) → Bool
  | [], [] => true
  | (k, x) :: xs, (l, y) :: ys => k == l && Json.beq x y && Json.beqFields xs ys
  | _, _ => false
end

mutual
theorem Json.eq_of_beq : ∀ (a b : Json), Json.beq a b = true → a = b
  | .null, .null, _ => rfl
  | .bool a, .bool b, h => by simpa [Json.beq] using h
  | .num a, .num b, h => by simpa [Json.beq] using h
  | .str a, .str b, h => by simpa [Json.beq] using h
  | .arr xs, .arr ys, h => by
    rw [Json.eqList_of_beq xs ys (by simpa [Json.beq] using h)]
  | .obj xs, .obj ys, h => by
    rw [Json.eqFields_of_beq xs ys (by simpa [Json.beq] using h)]

theorem Json.eqList_of_beq : ∀ (xs ys : List Json), Json.beqList xs ys = true → xs = ys
  | [], [], _ => rfl
  | x :: xs, y :: ys, h => by
    have h' := h
    simp only [Json.beqList, Bool.and_eq_true] at h'
    rw [Json.eq_of_beq x y h'.1, Json.eqList_of_beq xs ys h'.2]

theorem Json.eqFields_of_beq :
    ∀ (xs ys : List (String × Json)), Json.beqFields xs ys = true → xs = ys
  | [], [], _ => rfl
  | (k, x) :: xs, (l, y) :: ys, h => by
    have h' := h
    simp only [Json.beqFields, Bool.and_eq_true, beq_iff_eq] at h'
    rw [h'.1.1, Json.eq_of_beq x y h'.1.2, Json.eqFields_of_beq xs ys h'.2]
end

mutual
theorem Json.beq_refl : ∀ (a : Json), Json.beq a a = true
  | .null => rfl
  | .bool a => by simp [Json.beq]
  | .num a => by simp [Json.beq]
  | .str a => by simp [Json.beq]
  | .arr xs => by simpa [Json.beq] using Json.beqList_refl xs
  | .obj xs => by simpa [Json.beq] using Json.beqFields_refl xs

theorem Json.beqList_refl : ∀ (xs : List Json), Json.beqList xs xs = true
  | [] => rfl
  | x :: xs => by simp [Json.beqList, Json.beq_refl x, Json.beqList_refl xs]

theorem Json.beqFields_refl : ∀ (xs : List (String × Json)), Json.beqFields xs xs = true
  | [] => rfl
  | (k, x) :: xs => by simp [Json.beqFields, Json.beq_refl x, Json.beqFields_refl xs]
end

instance : DecidableEq Json := fun a b =>
  if h : Json.beq a b = true then isTrue (Json.eq_of_beq a b h)
  else isFalse (fun he => h (he ▸ Json.beq_refl a))

/-- Python truthiness (`if x:`) for JSON values. -/
def jTruthy : Json → Bool
  | .null => false
  | .bool b => b
  | .num n => n != 0
  | .str s => s != ""
  | .arr xs => !xs.isEmpty
  | .obj fs => !fs.isEmpty

/-- Python `x != 0` specialised to the envelope `code` check:
`0 != 0` and `False != 0` are both false in Python. -/
def isZero : Json → Bool
  | .num n => n == 0
  | .bool b => !b
  | _ => false

/-- Lookup in an ordered dict body (`fields[k]`, first matching key). -/
def jlookup : List (String × Json) → String → Option Json
  | [], _ => none
  | (k, v) :: rest, key => if key = k then some v else jlookup rest key

/-- Python `d.get(key, default)` on a value known to be a dict. -/
def jgetD (j : Json) (key : String) (dflt : Json) : Json :=
  match j with
  | .obj fs => (jlookup fs key).getD dflt
  | _ => dflt

/-- Python dict assignment `d[k] = v`: replaces in place if the key exists
(keeping its position), otherwise appends at the end. -/
def jdictSet : List (String × Json) → String → Json → List (String × Json)
  | [], key, v => [(key, v)]
  | (k, w) :: rest, key, v =>
    if key = k then (key, v) :: rest else (k, w) :: jdictSet rest key v

/-- Is the JSON value a dict? (`.get` on anything else raises.) -/
def isJObj : Json → Bool
  | .obj _ => true
  | _ => false

/-- Lookup in a dict whose keys are arbitrary JSON values (Python dicts key
on any hashable value; `docs_dict` is keyed by whatever `doc.get("id")`
returned). -/
def jassoc : List (Json × Json) → Json → Option Json
  | [], _ => none
  | (k, v) :: rest, key => if key = k then some v else jassoc rest key

/-- Python dict assignment for JSON-keyed dicts. -/
def jassocSet : List (Json × Json) → Json → Json → List (Json × Json)
  | [], key, v => [(key, v)]
  | (k, w) :: rest, key, v =>
    if key = k then (key, v) :: rest else (k, w) :: jassocSet rest key v

/-! ## Loosely-typed Python argument values

`search_documents` accepts `dataset_ids` / `document_ids` of any shape;
`PyVal` covers the shapes the normalizer distinguishes. -/

inductive PyVal where
  | none
  | bool (b : Bool)
  | int (n : Int)
  | str (s : String)
  | list (xs : List PyVal)
  deriving Repr

mutual
/-- Structural equality test for argument values. -/
def PyVal.beq : PyVal → PyVal → Bool
  | .none, .none => true
  | .bool a, .bool b => a == b
  | .int a, .int b => a == b
  | .str a, .str b => a == b
  | .list xs, .list ys => PyVal.beqList xs ys
  | _, _ => false

def PyVal.beqList : List PyVal → List PyVal → Bool
  | [], [] => true
  | x :: xs, y :: ys => PyVal.beq x y && PyVal.beqList xs ys
  | _, _ => false
end

mutual
theorem PyVal.pyval_eq_of_beq : ∀ (a b : PyVal), PyVal.beq a b = true → a = b
  | .none, .none, _ => rfl
  | .bool a, .bool b, h => by simpa [PyVal.beq] using h
  | .int a, .int b, h => by simpa [PyVal.beq] using h
  | .str a, .str b, h => by simpa [PyVal.beq] using h
  | .list xs, .list ys, h => by
    rw [PyVal.pyval_eqList_of_beq xs ys (by simpa [PyVal.beq] using h)]

theorem PyVal.pyval_eqList_of_beq : ∀ (xs ys : List PyVal), PyVal.beqList xs ys = true → xs = ys
  | [], [], _ => rfl
  | x :: xs, y :: ys, h => by
    have h' := h
    simp only [PyVal.beqList, Bool.and_eq_true] at h'
    rw [PyVal.pyval_eq_of_beq x y h'.1, PyVal.pyval_eqList_of_beq xs ys h'.2]
end

mutual
theorem PyVal.pyval_beq_refl : ∀ (a : PyVal), PyVal.beq a a = true
  | .none => rfl
  | .bool a => by simp [PyVal.beq]
  | .int a => by simp [PyVal.beq]
  | .str a => by simp [PyVal.beq]
  | .list xs => by simpa [PyVal.beq] using PyVal.pyval_beqList_refl xs

theorem PyVal.pyval_beqList_refl : ∀ (xs : List PyVal), PyVal.beqList xs xs = true
  | [] => rfl
  | x :: xs => by simp [PyVal.beqList, PyVal.pyval_beq_refl x, PyVal.pyval_beqList_refl xs]
end

instance : DecidableEq PyVal := fun a b =>
  if h : PyVal.beq a b = true then isTrue (PyVal.pyval_eq_of_beq a b h)
  else isFalse (fun he => h (he ▸ PyVal.pyval_beq_refl a))

/-- Python truthiness for argument values. -/
def pyTruthy : PyVal → Bool
  | .none => false
  | .bool b => b
  | .int n => n != 0
  | .str s => s != ""
  | .list xs => !xs.isEmpty

/-- Python whitespace stripped by `str.strip()` (the ASCII subset). -/
def isPySpace (c : Char) : Bool :=
  c = ' ' || c = '\t' || c = '\n' || c = '\x0d' || c = '\x0b' || c = '\x0c'

/-- `str.strip()` on the character list. -/
def pystripList (l : List Char) : List Char :=
  ((l.dropWhile isPySpace).reverse.dropWhile isPySpace).reverse

/-- Python `s.strip()`. -/
def pystrip (s : String) : String :=
  String.mk (pystripList s.data)

/-- Python `s.lower()` (character-wise, which matches the ASCII
identifiers the normalizer compares against). -/
def pyLower (s : String) : String :=
  String.mk (s.data.map Char.toLower)

mutual
/-- Python `str(v)`. -/
def pyStr : PyVal → String
  | .none => "None"
  | .bool true => "True"
  | .bool false => "False"
  | .int n => toString n
  | .str s => s
  | .list xs => "[" ++ String.intercalate ", " (pyReprList xs) ++ "]"

/-- `repr` of each element, as used when a list is rendered by `str`. -/
def pyReprList : List PyVal → List String
  | [] => []
  | x :: rest => pyRepr x :: pyReprList rest

/-- Python `repr(v)` (only the cases reachable from `str` on a list). -/
def pyRepr : PyVal → String
  | .str s => "\x27" ++ s ++ "\x27"
  | .none => "None"
  | .bool true => "True"
  | .bool false => "False"
  | .int n => toString n
  | .list xs => "[" ++ String.intercalate ", " (pyReprList xs) ++ "]"
end

/-! ## `LRUCache` (mcp_app.py lines 42-76)

`self.cache` is an `OrderedDict` mapping keys to `(value, expiry_time)`;
we embed it as a list of `(key, value, expiry)` triples, least recently
touched first.  The key type is a parameter: the dataset cache is keyed by
whatever JSON value the chunk carried as its dataset id. -/

structure LRUCache (κ α : Type) where
  max_size : Nat
  ttl_seconds : Nat
  cache : List (κ × α × Nat)
  deriving Repr, DecidableEq

namespace LRUCache

variable {κ α : Type} [DecidableEq κ]

/-- `key in self.cache` / `self.cache[key]`. -/
def lookupE : List (κ × α × Nat) → κ → Option (α × Nat)
  | [], _ => none
  | (k, v, e) :: rest, key => if key = k then some (v, e) else lookupE rest key

/-- `del self.cache[key]` (also the erase half of `move_to_end`). -/
def eraseE : List (κ × α × Nat) → κ → List (κ × α × Nat)
  | [], _ => []
  | (k, v, e) :: rest, key =>
    if key = k then rest else (k, v, e) :: eraseE rest key

/-- `LRUCache.get`: absent key or expired entry yields `None` (an expired
entry is deleted); a hit moves the entry to the most-recently-used end. -/
def get (c : LRUCache κ α) (now : Nat) (key : κ) : Option α × LRUCache κ α :=
  match lookupE c.cache key with
  | none => (none, c)
  | some (v, e) =>
    if now > e then
      (none, { c with cache := eraseE c.cache key })
    else
      (some v, { c with cache := eraseE c.cache key ++ [(key, v, e)] })

/-- `LRUCache.set`: insert/replace with `expiry = now + ttl`, move to the
end, then pop the least-recently-used entry if over capacity. -/
def set (c : LRUCache κ α) (now : Nat) (key : κ) (v : α) : LRUCache κ α :=
  let l := eraseE c.cache key ++ [(key, v, now + c.ttl_seconds)]
  { c with cache := if c.max_size < l.length then l.tail else l }

/-- `LRUCache.clear`. -/
def clear (c : LRUCache κ α) : LRUCache κ α :=
  { c with cache := [] }

/-- Folding `set` over a list of key/value pairs (all at one instant). -/
def insertAll (c : LRUCache κ α) (now : Nat) (kvs : List (κ × α)) : LRUCache κ α :=
  kvs.foldl (fun acc kv => acc.set now kv.1 kv.2) c

end LRUCache

/-! ## `RAGFlowConnector._request` decode (mcp_app.py lines 157-188)

The transport outcome is embedded as the HTTP status plus the decoded
body: `jsonBody = none` models a body `response.json()` fails to parse,
`text` is `response.text()`. -/

structure HttpResponse where
  status : Nat
  jsonBody : Option Json
  text : String

/-- Decoding half of `_request`: status ≥ 400 raises, 204 yields an empty
dict, an unparsable body yields a dict wrapping the raw text. -/
def requestOfResponse (resp : HttpResponse) : Except String Json :=
  if resp.status ≥ 400 then
    .error ("RAGFlow API error " ++ toString resp.status ++ ": " ++ resp.text)
  else if resp.status = 204 then
    .ok (.obj [])
  else
    match resp.jsonBody with
    | some j => .ok j
    | none => .ok (.obj [("data", .str resp.text)])

/-! ## Backend environment and call log

Every awaited `_request` in the connector consumes one entry of the
environment; the log records which endpoints were actually contacted. -/

/-- The HTTP calls the connector can issue during one operation. -/
inductive Call where
  | listDatasets
  | datasetInfo (id : Json)
  | getDocs (id : Json)
  | retrievalPost (payload : Json)
  deriving DecidableEq, Repr

/-- Backend behaviour: the `_request` outcome for each endpoint.
`Except.error` models a raised `RuntimeError`/timeout. -/
structure Env where
  listResp : Except String Json
  infoResp : Json → Except String Json
  docsResp : Json → Except String Json
  postResp : Json → Except String Json

/-- The connector's two caches. The key type is `Json` because enrichment
keys them by whatever value the chunk carried as its dataset id. -/
structure Caches where
  dataset_cache : LRUCache Json Json
  document_cache : LRUCache Json (List (Json × Json))
  deriving DecidableEq, Repr

/-! ## `list_datasets` (lines 190-247): best-effort discovery.

Every failure inside it (transport error, non-dict response, non-zero
envelope code, `len()` raising on a non-sized `data`) is caught and
becomes an empty list; a string `data` survives the `len()` logging call
and is returned as-is. -/

def list_datasets (env : Env) : Json :=
  match env.listResp with
  | .error _ => .arr []
  | .ok r =>
    match r with
    | .obj _ =>
      if isZero (jgetD r "code" .null) = false then .arr []
      else
        match jgetD r "data" (.arr []) with
        | .null => .arr []
        | .obj fs => if fs.isEmpty then .arr [] else .arr (fs.map Prod.snd)
        | .arr xs => .arr xs
        | .str s => .str s
        | _ => .arr []
    | _ => .arr []

/-! ## `get_dataset_info` (lines 249-281): cached single-dataset lookup. -/

/-- The fetch path of `get_dataset_info` (cache miss).  Any exception and
any envelope irregularity collapses to `none`; a found record is reshaped
to id/name/description and cached. -/
def fetch_dataset_info (env : Env) (now : Nat) (st : Caches) (dsid : Json) :
    Option Json × Caches × List Call :=
  match env.infoResp dsid with
  | .error _ => (none, st, [.datasetInfo dsid])
  | .ok r =>
    match r with
    | .obj _ =>
      if isZero (jgetD r "code" .null) = false then (none, st, [.datasetInfo dsid])
      else
        match jgetD r "data" (.arr []) with
        | .arr (d0 :: _) =>
          match d0 with
          | .obj _ =>
            let info := Json.obj [("id", jgetD d0 "id" .null),
                                  ("name", jgetD d0 "name" (.str "Unknown")),
                                  ("description", jgetD d0 "description" (.str ""))]
            (some info,
             { st with dataset_cache := st.dataset_cache.set now dsid info },
             [.datasetInfo dsid])
          | _ => (none, st, [.datasetInfo dsid])
        | _ => (none, st, [.datasetInfo dsid])
    | _ => (none, st, [.datasetInfo dsid])

/-- `get_dataset_info`: the cache is consulted first (the `get` itself
marks a hit most-recently-used); `if cached:` requires a truthy value. -/
def get_dataset_info (env : Env) (now : Nat) (st : Caches) (dsid : Json) :
    Option Json × Caches × List Call :=
  match st.dataset_cache.get now dsid with
  | (some info, dc) =>
    if jTruthy info then (some info, { st with dataset_cache := dc }, [])
    else fetch_dataset_info env now { st with dataset_cache := dc } dsid
  | (none, dc) => fetch_dataset_info env now { st with dataset_cache := dc } dsid

/-! ## `get_documents` (lines 283-329): cached per-dataset document map. -/

/-- The `for doc in docs_list` loop: build the id-keyed map, skipping
records without a truthy id; a non-dict record raises. -/
def buildDocsDict : List Json → List (Json × Json) → Except String (List (Json × Json))
  | [], acc => .ok acc
  | d :: rest, acc =>
    match d with
    | .obj _ =>
      let did := jgetD d "id" .null
      if jTruthy did then
        buildDocsDict rest (jassocSet acc did (Json.obj
          [("id", did),
           ("name", jgetD d "name" (.str "")),
           ("location", jgetD d "location" (.str "")),
           ("type", jgetD d "type" (.str "")),
           ("size", jgetD d "size" .null),
           ("chunk_count", jgetD d "chunk_count" .null),
           ("create_date", jgetD d "create_date" (.str "")),
           ("update_date", jgetD d "update_date" (.str "")),
           ("token_count", jgetD d "token_count" .null),
           ("thumbnail", jgetD d "thumbnail" (.str ""))]))
      else buildDocsDict rest acc
    | _ => .error "AttributeError"

/-- The fetch path of `get_documents` (cache miss).  A successfully built
map — even an empty one — is cached; an exception mid-loop skips the
cache write and yields an empty map.  A `docs` value over which the loop
runs zero times (empty string, empty dict) also caches the empty map. -/
def fetch_documents (env : Env) (now : Nat) (st : Caches) (dsid : Json) :
    List (Json × Json) × Caches × List Call :=
  match env.docsResp dsid with
  | .error _ => ([], st, [.getDocs dsid])
  | .ok r =>
    match r with
    | .obj _ =>
      if isZero (jgetD r "code" .null) = false then ([], st, [.getDocs dsid])
      else
        match jgetD r "data" (.obj []) with
        | .obj dfs =>
          match jgetD (.obj dfs) "docs" (.arr []) with
          | .arr docs =>
            match buildDocsDict docs [] with
            | .ok dd =>
              (dd, { st with document_cache := st.document_cache.set now dsid dd },
               [.getDocs dsid])
            | .error _ => ([], st, [.getDocs dsid])
          | .str "" =>
            ([], { st with document_cache := st.document_cache.set now dsid [] },
             [.getDocs dsid])
          | .obj [] =>
            ([], { st with document_cache := st.document_cache.set now dsid [] },
             [.getDocs dsid])
          | _ => ([], st, [.getDocs dsid])
        | _ => ([], st, [.getDocs dsid])
    | _ => ([], st, [.getDocs dsid])

/-- `get_documents`: cache first; `if cached:` is a truthiness test, so a
cached empty map is treated exactly like a miss and refetched. -/
def get_documents (env : Env) (now : Nat) (st : Caches) (dsid : Json) :
    List (Json × Json) × Caches × List Call :=
  match st.document_cache.get now dsid with
  | (some m, dc) =>
    if m.isEmpty then fetch_documents env now { st with document_cache := dc } dsid
    else (m, { st with document_cache := dc }, [])
  | (none, dc) => fetch_documents env now { st with document_cache := dc } dsid

/-! ## Argument normalizer (`search_documents`, lines 662-694)

Both `dataset_ids` and `document_ids` go through the same block. -/

/-- The normalization block of `search_documents` for one filter value:
falsy input stays absent; a string becomes a singleton of its stripped
form (or absent if blank); a list is filtered element-wise — and the
(possibly empty) filtered list is assigned; any other value is coerced to
a string, with the literal forms none/null/[]/empty treated as absent. -/
def normalize_ids (v : PyVal) : Option (List String) :=
  if pyTruthy v = false then none
  else
    match v with
    | .str s => if pystrip s ≠ "" then some [pystrip s] else none
    | .list xs =>
      some (xs.filterMap fun d =>
        if pyTruthy d = true ∧ pystrip (pyStr d) ≠ "" then some (pystrip (pyStr d))
        else none)
    | _ =>
      let sv := pystrip (pyStr v)
      if sv ≠ "" ∧ (["none", "null", "[]", ""].contains (pyLower sv)) = false
      then some [sv] else none

/-- The re-filter at the top of `RAGFlowConnector.retrieval` (lines
349-355 for `dataset_ids`, 380-386 for `document_ids`): keep elements
that are truthy strings with non-blank strip, and treat a filter with no
survivors as no filter at all. -/
def filter_ids (ids : Option (List PyVal)) : Option (List String) :=
  match ids with
  | none => none
  | some l =>
    if l.isEmpty then none
    else
      let valid := l.filterMap fun d =>
        match d with
        | .str s => if s ≠ "" ∧ pystrip s ≠ "" then some s else none
        | _ => none
      if valid.isEmpty then none else some valid

/-! ## `RAGFlowConnector.retrieval` (lines 331-518) -/

/-- The arguments of `retrieval`.  The two float parameters are never
computed with — only echoed into the payload and `query_info` — so they
are carried as opaque JSON values. -/
structure Args where
  question : String
  dataset_ids : Option (List PyVal) := none
  document_ids : Option (List PyVal) := none
  page : Int := 1
  page_size : Int := 10
  similarity_threshold : Json := Json.null
  vector_similarity_weight : Json := Json.null
  keyword : Bool := false
  top_k : Int := 1024
  rerank_id : Option String := none
  force_refresh : Bool := false

/-- The zeroed pagination block used on the error paths (requested page
and page size, totals 0). -/
def pagRequested (page page_size : Int) : Json :=
  .obj [("page", .num page), ("page_size", .num page_size),
        ("total_chunks", .num 0), ("total_pages", .num 0)]

/-- The early return when no datasets are available (lines 366-375). -/
def noDatasetsJson (question apiUrl : String) : Json :=
  .obj [("error", .str "No datasets available in RAGFlow backend"),
        ("debug", .obj [("question", .str question), ("api_url", .str apiUrl),
          ("message", .str "list_datasets() returned empty. Check that RAGFLOW_BASE_URL is correct and RAGFlow backend is running.")]),
        ("chunks", .arr []),
        ("query", .str question)]

/-- The result returned when the retrieval envelope has a non-zero code
(lines 422-432). -/
def backendErrJson (a : Args) (msg : Json) : Json :=
  .obj [("error", msg), ("chunks", .arr []), ("query", .str a.question),
        ("pagination", pagRequested a.page a.page_size)]

/-- The `query_info` echo block (lines 450-456 and 494-500). -/
def queryInfoJson (a : Args) (ids : List Json) : Json :=
  .obj [("question", .str a.question),
        ("similarity_threshold", a.similarity_threshold),
        ("vector_weight", a.vector_similarity_weight),
        ("keyword_search", .bool a.keyword),
        ("dataset_count", .num (if ids.isEmpty then 0 else (ids.length : Int)))]

/-- The result returned when the envelope succeeds with zero chunks
(lines 440-457). -/
def noChunksJson (a : Args) (ids : List Json) : Json :=
  .obj [("chunks", .arr []),
        ("message", .str "No relevant documents found for your question."),
        ("query", .str a.question),
        ("pagination", pagRequested a.page a.page_size),
        ("query_info", queryInfoJson a ids)]

/-- The retrieval POST payload (lines 395-409); `document_ids` and
`rerank_id` are appended only when truthy. -/
def mkPayload (a : Args) (ids : List Json) (vdoc : Option (List String)) : Json :=
  let base := [("question", Json.str a.question), ("page", Json.num a.page),
    ("page_size", Json.num a.page_size),
    ("similarity_threshold", a.similarity_threshold),
    ("vector_similarity_weight", a.vector_similarity_weight),
    ("keyword", Json.bool a.keyword), ("top_k", Json.num a.top_k),
    ("dataset_ids", Json.arr ids)]
  let base1 := match vdoc with
    | some l => if l.isEmpty then base else base ++ [("document_ids", Json.arr (l.map Json.str))]
    | none => base
  let base2 := match a.rerank_id with
    | some rid => if rid = "" then base1 else base1 ++ [("rerank_id", Json.str rid)]
    | none => base1
  Json.obj base2

/-- `[ds.get("id") for ds in all_datasets if ds.get("id")]` (line 377):
a non-dict dataset record raises. -/
def extractIds : List Json → Except String (List Json)
  | [] => .ok []
  | ds :: rest =>
    match ds with
    | .obj _ =>
      match extractIds rest with
      | .ok ids =>
        .ok (if jTruthy (jgetD ds "id" .null) then jgetD ds "id" .null :: ids else ids)
      | .error m => .error m
    | _ => .error "AttributeError"

/-- Outcome of scope resolution (lines 349-378). -/
inductive ScopeRes where
  | ids (l : List Json)
  | noDatasets
  | err (m : String)
  deriving DecidableEq, Repr

/-- Resolve the dataset scope: use the caller's filter if any element
survives, otherwise enumerate all datasets; an empty enumeration is the
early-exit case. -/
def resolveScope (env : Env) (a : Args) : ScopeRes × List Call :=
  match filter_ids a.dataset_ids with
  | some vids => (.ids (vids.map Json.str), [])
  | none =>
    let lds := list_datasets env
    if jTruthy lds = false then (.noDatasets, [.listDatasets])
    else
      match lds with
      | .arr xs =>
        (match extractIds xs with
         | .ok ids => .ids ids
         | .error m => .err m, [.listDatasets])
      | _ => (.err "AttributeError", [.listDatasets])

/-! ## Enrichment (lines 459-479) -/

/-- Apply the at-most-three field assignments enrichment can make to a
chunk, in source order: `dataset_name`, then `document_name`, then
`document_metadata`. -/
def enrichApply (c : Json) (dn nm mt : Option Json) : Json :=
  match c with
  | .obj fs =>
    let f1 := match dn with | some v => jdictSet fs "dataset_name" v | none => fs
    let f2 := match nm with | some v => jdictSet f1 "document_name" v | none => f1
    let f3 := match mt with | some v => jdictSet f2 "document_metadata" v | none => f2
    .obj f3
  | _ => c

/-- `chunk.get("dataset_id") or chunk.get("kb_id")` (line 465). -/
def chunkDatasetId (c : Json) : Json :=
  let a := jgetD c "dataset_id" .null
  if jTruthy a then a else jgetD c "kb_id" .null

/-- The dataset half of chunk enrichment (lines 464-469): when the chunk
carries a truthy dataset id, resolve it and keep the name to attach when
the resolver returned a truthy record. -/
def enrichStep1 (env : Env) (now : Nat) (st : Caches) (dsid : Json) :
    Option Json × Caches × List Call :=
  if jTruthy dsid then
    match get_dataset_info env now st dsid with
    | (some info, st1, lg1) =>
      (if jTruthy info then some (jgetD info "name" (.str "Unknown")) else none,
       st1, lg1)
    | (none, st1, lg1) => (none, st1, lg1)
  else (none, st, [])

/-- Enrich one chunk: copy it, resolve its dataset name, and resolve its
document name/metadata (when it also carries a truthy document id found
in the dataset's document map).  A non-dict chunk raises out of the
loop. -/
def enrichChunk (env : Env) (now : Nat) (st : Caches) (c : Json) :
    Except String Json × Caches × List Call :=
  match c with
  | .obj _ =>
    let dsid := chunkDatasetId c
    match enrichStep1 env now st dsid with
    | (dn, st1, lg1) =>
      let docid := jgetD c "document_id" .null
      if jTruthy dsid = true ∧ jTruthy docid = true then
        match get_documents env now st1 dsid with
        | (docs, st2, lg2) =>
          match jassoc docs docid with
          | some meta =>
            (.ok (enrichApply c dn (some (jgetD meta "name" (.str ""))) (some meta)),
             st2, lg1 ++ lg2)
          | none => (.ok (enrichApply c dn none none), st2, lg1 ++ lg2)
      else (.ok (enrichApply c dn none none), st1, lg1)
  | _ => (.error "TypeError", st, [])

/-- The enrichment loop over the chunk list, threading the caches. -/
def enrichAll (env : Env) (now : Nat) :
    Caches → List Json → Except String (List Json) × Caches × List Call
  | st, [] => (.ok [], st, [])
  | st, c :: rest =>
    match enrichChunk env now st c with
    | (.error m, st1, lg1) => (.error m, st1, lg1)
    | (.ok ec, st1, lg1) =>
      match enrichAll env now st1 rest with
      | (res, st2, lg2) => (res.map fun ecs => ec :: ecs, st2, lg1 ++ lg2)

/-- Python integer coercion inside `total_chunks + page_size - 1`:
only numbers (and bools) add with ints; anything else raises. -/
def toArith : Json → Except String Int
  | .num n => .ok n
  | .bool b => .ok (if b then 1 else 0)
  | _ => .error "TypeError"

/-- The successful structured response (lines 485-501): pagination uses
backend-reported page/page_size/total when present, falling back to the
requested values, with `total_pages` floor-computed Python style. -/
def successJson (a : Args) (dataJ : Json) (ecs : List Json) (tc : Json) (tp : Int)
    (ids : List Json) : Json :=
  .obj [("chunks", .arr ecs),
        ("pagination", .obj [("page", jgetD dataJ "page" (.num a.page)),
          ("page_size", jgetD dataJ "page_size" (.num a.page_size)),
          ("total_chunks", tc), ("total_pages", .num tp)]),
        ("query", .str a.question),
        ("query_info", queryInfoJson a ids)]

/-- The post-envelope success path (lines 434-504): extract chunks, the
zero-chunk early return, enrichment, pagination arithmetic. -/
def handleSuccess (env : Env) (now : Nat) (st : Caches) (a : Args) (ids : List Json)
    (dataJ : Json) : Except String Json × Caches × List Call :=
  let chunksJ := jgetD dataJ "chunks" (.arr [])
  if jTruthy chunksJ = false then (.ok (noChunksJson a ids), st, [])
  else
    match chunksJ with
    | .arr cs =>
      match enrichAll env now st cs with
      | (.ok ecs, st2, lg2) =>
        let tc := jgetD dataJ "total" (.num (cs.length : Int))
        match toArith tc with
        | .ok tcI =>
          if a.page_size = 0 then (.error "ZeroDivisionError", st2, lg2)
          else
            (.ok (successJson a dataJ ecs tc (Int.fdiv (tcI + a.page_size - 1) a.page_size) ids),
             st2, lg2)
        | .error m => (.error m, st2, lg2)
      | (.error m, st2, lg2) => (.error m, st2, lg2)
    | _ => (.error "TypeError", st, [])

/-- The body of `retrieval` inside its `try`: scope resolution, force
refresh, the POST, envelope check, and the success path.  `Except.error`
is an exception in flight towards the boundary handler. -/
def retrievalBody (apiUrl : String) (env : Env) (now : Nat) (st : Caches) (a : Args) :
    Except String Json × Caches × List Call :=
  match resolveScope env a with
  | (.noDatasets, lg) => (.ok (noDatasetsJson a.question apiUrl), st, lg)
  | (.err m, lg) => (.error m, st, lg)
  | (.ids ids, lg) =>
    let vdoc := filter_ids a.document_ids
    let st1 := if a.force_refresh then
        { dataset_cache := st.dataset_cache.clear,
          document_cache := st.document_cache.clear }
      else st
    let payload := mkPayload a ids vdoc
    let lg1 := lg ++ [.retrievalPost payload]
    match env.postResp payload with
    | .error m => (.error m, st1, lg1)
    | .ok result =>
      match result with
      | .obj _ =>
        if isZero (jgetD result "code" .null) = false then
          (.ok (backendErrJson a (jgetD result "message" (.str "Unknown error from RAGFlow"))),
           st1, lg1)
        else
          match jgetD result "data" (.obj []) with
          | .obj dfs =>
            match handleSuccess env now st1 a ids (.obj dfs) with
            | (res, st2, lg2) => (res, st2, lg1 ++ lg2)
          | _ => (.error "AttributeError", st1, lg1)
      | _ => (.error "AttributeError", st1, lg1)

/-- The dict built by the boundary `except` handler (lines 506-518). -/
def errorBoundaryJson (a : Args) (m : String) : Json :=
  .obj [("error", .str ("Retrieval failed: " ++ m)), ("chunks", .arr []),
        ("query", .str a.question), ("pagination", pagRequested a.page a.page_size)]

/-- `RAGFlowConnector.retrieval`: the body wrapped in the boundary
`except Exception` handler, so the operation is total. -/
def retrieval (apiUrl : String) (env : Env) (now : Nat) (st : Caches) (a : Args) :
    Json × Caches × List Call :=
  match retrievalBody apiUrl env now st a with
  | (.ok j, st1, lg) => (j, st1, lg)
  | (.error m, st1, lg) => (errorBoundaryJson a m, st1, lg)

/-! ## Cache lemmas -/

namespace LRUCache

variable {κ α : Type} [DecidableEq κ]

theorem lookupE_of_not_mem {l : List (κ × α × Nat)} {k : κ}
    (h : k ∉ l.map (fun e => e.1)) : lookupE l k = none := by
  induction l with
  | nil => rfl
  | cons e rest ih =>
    simp only [List.map_cons, List.mem_cons, not_or] at h
    obtain ⟨e1, e2, e3⟩ := e
    simpa [lookupE, h.1] using ih h.2

theorem eraseE_of_not_mem {l : List (κ × α × Nat)} {k : κ}
    (h : k ∉ l.map (fun e => e.1)) : eraseE l k = l := by
  induction l with
  | nil => rfl
  | cons e rest ih =>
    simp only [List.map_cons, List.mem_cons, not_or] at h
    obtain ⟨e1, e2, e3⟩ := e
    simp [eraseE, h.1, ih h.2]

theorem lookupE_append_of_not_mem {xs ys : List (κ × α × Nat)} {k : κ}
    (h : k ∉ xs.map (fun e => e.1)) : lookupE (xs ++ ys) k = lookupE ys k := by
  induction xs with
  | nil => rfl
  | cons e rest ih =>
    simp only [List.map_cons, List.mem_cons, not_or] at h
    obtain ⟨e1, e2, e3⟩ := e
    simpa [lookupE, h.1] using ih h.2

/-- Looking up the `i`-th key of a nodup-keyed list of entries built from
key/value pairs at a common expiry. -/
theorem lookupE_map_entry (E : Nat) :
    ∀ (l : List (κ × α)) (i : Nat) (h : i < l.length),
      (l.map Prod.fst).Nodup →
      lookupE (l.map fun kv => (kv.1, kv.2, E)) (l.get ⟨i, h⟩).1 =
        some ((l.get ⟨i, h⟩).2, E)
  | kv :: rest, 0, _, _ => by simp [lookupE]
  | kv :: rest, i + 1, h, hnd => by
    simp only [List.map_cons, List.nodup_cons] at hnd
    have hi : i < rest.length := by simpa using Nat.lt_of_succ_lt_succ h
    have hmem : (rest.get ⟨i, hi⟩).1 ∈ rest.map Prod.fst :=
      List.mem_map_of_mem Prod.fst (List.get_mem rest i hi)
    have hne : (rest.get ⟨i, hi⟩).1 ≠ kv.1 := fun he => hnd.1 (he ▸ hmem)
    show lookupE ((kv.1, kv.2, E) :: rest.map fun kv => (kv.1, kv.2, E))
        ((rest.get ⟨i, hi⟩).1) = some ((rest.get ⟨i, hi⟩).2, E)
    simp only [lookupE, if_neg hne]
    exact lookupE_map_entry E rest i hi hnd.2

/-- Inserting key/value pairs with fresh, pairwise distinct keys into a
cache within capacity appends them in order and drops from the
least-recently-used front exactly as far as capacity requires. -/
theorem insertAll_fresh (now : Nat) :
    ∀ (kvs : List (κ × α)) (c : LRUCache κ α),
      (kvs.map Prod.fst).Nodup →
      (∀ k ∈ kvs.map Prod.fst, k ∉ c.cache.map (fun e => e.1)) →
      c.cache.length ≤ c.max_size →
      (insertAll c now kvs).cache =
        (c.cache ++ kvs.map fun kv => (kv.1, kv.2, now + c.ttl_seconds)).drop
          (c.cache.length + kvs.length - c.max_size) ∧
      (insertAll c now kvs).max_size = c.max_size ∧
      (insertAll c now kvs).ttl_seconds = c.ttl_seconds
  | [], c, _, _, hlen => by
    simp [insertAll, Nat.sub_eq_zero_of_le hlen]
  | (k, v) :: rest, c, hnd, hfresh, hlen => by
    simp only [List.map_cons, List.nodup_cons] at hnd
    have hkfresh : k ∉ c.cache.map (fun e => e.1) := hfresh k (by simp)
    have herase : eraseE c.cache k = c.cache := eraseE_of_not_mem hkfresh
    have hstep : insertAll c now ((k, v) :: rest) = insertAll (c.set now k v) now rest := by
      simp [insertAll, List.foldl_cons]
    have httl : (c.set now k v).ttl_seconds = c.ttl_seconds := rfl
    have hms : (c.set now k v).max_size = c.max_size := rfl
    set e : κ × α × Nat := (k, v, now + c.ttl_seconds) with he
    have hcachedef : (c.set now k v).cache =
        if c.max_size < (c.cache ++ [e]).length then (c.cache ++ [e]).tail
        else c.cache ++ [e] := by
      simp only [set, herase, he]
    by_cases hover : c.max_size < (c.cache ++ [e]).length
    · -- at capacity: the least-recently-used head is dropped
      have hsetc : (c.set now k v).cache = (c.cache ++ [e]).tail := by
        rw [hcachedef, if_pos hover]
      have hlen2 : c.cache.length = c.max_size := by
        have h1 : (c.cache ++ [e]).length = c.cache.length + 1 := by simp
        omega
      have hlentail : (c.set now k v).cache.length = c.max_size := by
        rw [hsetc, List.length_tail]
        simp [hlen2]
      have hlen3 : (c.set now k v).cache.length ≤ (c.set now k v).max_size := by
        rw [hlentail, hms]
      have hfresh2 : ∀ k' ∈ rest.map Prod.fst,
          k' ∉ (c.set now k v).cache.map (fun x => x.1) := by
        intro k' hk' hmem
        rw [hsetc] at hmem
        have hsub : ((c.cache ++ [e]).tail.map fun x => x.1) ⊆
            ((c.cache ++ [e]).map fun x => x.1) :=
          List.map_subset _ (List.tail_subset _)
        have hin0 := hsub hmem
        simp only [List.map_append, List.mem_append, List.map_cons, List.map_nil,
          List.mem_singleton] at hin0
        rcases hin0 with hin | hin
        · exact hfresh k' (by simp [hk']) hin
        · exact hnd.1 (by simpa [he, ← hin] using hk')
      obtain ⟨ih1, ih2, ih3⟩ :=
        insertAll_fresh now rest (c.set now k v) hnd.2 hfresh2 hlen3
      refine ⟨?_, by rw [hstep, ih2, hms], by rw [hstep, ih3, httl]⟩
      rw [hstep, ih1]
      simp only [hsetc, httl, hms]
      have htl : (c.cache ++ [e]).tail.length = c.max_size := by
        rw [List.length_tail]
        simp [hlen2]
      have h1le : 1 ≤ (c.cache ++ [e]).length := by simp
      rw [htl, ← List.drop_one, ← List.drop_append_of_le_length h1le, List.drop_drop]
      have hmapcons :
          List.map (fun kv => (kv.1, kv.2, now + c.ttl_seconds)) ((k, v) :: rest) =
            e :: List.map (fun kv => (kv.1, kv.2, now + c.ttl_seconds)) rest := by
        simp [he]
      have hassoc :
          c.cache ++ e :: List.map (fun kv => (kv.1, kv.2, now + c.ttl_seconds)) rest =
            (c.cache ++ [e]) ++ List.map (fun kv => (kv.1, kv.2, now + c.ttl_seconds)) rest := by
        simp
      rw [hmapcons, hassoc]
      have hlc : ((k, v) :: rest).length = rest.length + 1 := by simp
      have hidx : 1 + (c.max_size + rest.length - c.max_size) =
          c.cache.length + ((k, v) :: rest).length - c.max_size := by
        omega
      rw [hidx]
    · -- under capacity: plain append
      have hsetc : (c.set now k v).cache = c.cache ++ [e] := by
        rw [hcachedef, if_neg hover]
      have hlen3 : (c.set now k v).cache.length ≤ (c.set now k v).max_size := by
        rw [hsetc, hms]
        simp only [not_lt, List.length_append, List.length_singleton] at hover ⊢
        omega
      have hfresh2 : ∀ k' ∈ rest.map Prod.fst,
          k' ∉ (c.set now k v).cache.map (fun x => x.1) := by
        intro k' hk' hmem
        rw [hsetc] at hmem
        simp only [List.map_append, List.mem_append, List.map_cons, List.map_nil,
          List.mem_singleton] at hmem
        rcases hmem with hin | hin
        · exact hfresh k' (by simp [hk']) hin
        · exact hnd.1 (by simpa [he, ← hin] using hk')
      obtain ⟨ih1, ih2, ih3⟩ :=
        insertAll_fresh now rest (c.set now k v) hnd.2 hfresh2 hlen3
      refine ⟨?_, by rw [hstep, ih2, hms], by rw [hstep, ih3, httl]⟩
      rw [hstep, ih1]
      simp only [hsetc, httl, hms]
      have hmapcons :
          List.map (fun kv => (kv.1, kv.2, now + c.ttl_seconds)) ((k, v) :: rest) =
            e :: List.map (fun kv => (kv.1, kv.2, now + c.ttl_seconds)) rest := by
        simp [he]
      have hassoc :
          c.cache ++ e :: List.map (fun kv => (kv.1, kv.2, now + c.ttl_seconds)) rest =
            (c.cache ++ [e]) ++ List.map (fun kv => (kv.1, kv.2, now + c.ttl_seconds)) rest := by
        simp
      rw [hmapcons, hassoc]
      have hlc : ((k, v) :: rest).length = rest.length + 1 := by simp
      have hl1 : (c.cache ++ [e]).length = c.cache.length + 1 := by simp
      have hidx : (c.cache ++ [e]).length + rest.length - c.max_size =
          c.cache.length + ((k, v) :: rest).length - c.max_size := by
        omega
      rw [hidx]

theorem eraseE_length_le (l : List (κ × α × Nat)) (k : κ) :
    (eraseE l k).length ≤ l.length := by
  induction l with
  | nil => simp [eraseE]
  | cons e rest ih =>
    obtain ⟨e1, e2, e3⟩ := e
    by_cases hk : k = e1
    · simp [eraseE, hk]
    · simp only [eraseE, if_neg hk, List.length_cons]
      omega

theorem not_mem_map_eraseE {l : List (κ × α × Nat)} {k : κ}
    (h : (l.map (fun x => x.1)).Nodup) : k ∉ (eraseE l k).map (fun x => x.1) := by
  induction l with
  | nil => simp [eraseE]
  | cons e rest ih =>
    obtain ⟨e1, e2, e3⟩ := e
    simp only [List.map_cons, List.nodup_cons] at h
    by_cases hk : k = e1
    · simpa [eraseE, hk] using h.1
    · simp only [eraseE, if_neg hk, List.map_cons, List.mem_cons, not_or]
      exact ⟨hk, ih h.2⟩

end LRUCache

/-- C6: an `LRUCache` holds at most `max_size` entries after any `set`;
an overflowing insertion removes exactly one entry, the
least-recently-touched (front) one; and inserting `N + 1` distinct fresh
keys into an empty cache of capacity `N` makes the first key absent and
keeps every later key readable. -/
theorem lru_set_capacity_eviction :
    (∀ (κ α : Type) [DecidableEq κ] (c : LRUCache κ α) (now : Nat) (k : κ) (v : α),
        c.cache.length ≤ c.max_size →
        (c.set now k v).cache.length ≤ c.max_size ∧
        (c.max_size <
            (LRUCache.eraseE c.cache k ++ [(k, v, now + c.ttl_seconds)]).length →
          (c.set now k v).cache =
              (LRUCache.eraseE c.cache k ++ [(k, v, now + c.ttl_seconds)]).tail ∧
            (c.set now k v).cache.length + 1 =
              (LRUCache.eraseE c.cache k ++ [(k, v, now + c.ttl_seconds)]).length)) ∧
    (∀ (κ α : Type) [DecidableEq κ] (N ttl now : Nat) (k₀ : κ) (v₀ : α)
        (rest : List (κ × α)),
        rest.length = N →
        (k₀ :: rest.map Prod.fst).Nodup →
        ((({ max_size := N, ttl_seconds := ttl, cache := [] } : LRUCache κ α).insertAll
            now ((k₀, v₀) :: rest)).get now k₀).1 = none ∧
        ∀ (i : Nat) (h : i < rest.length),
          ((({ max_size := N, ttl_seconds := ttl, cache := [] } : LRUCache κ α).insertAll
              now ((k₀, v₀) :: rest)).get now (rest.get ⟨i, h⟩).1).1 =
            some (rest.get ⟨i, h⟩).2) := by
  constructor
  · intro κ α _ c now k v hlen
    have hel : (LRUCache.eraseE c.cache k).length ≤ c.cache.length :=
      LRUCache.eraseE_length_le _ _
    have hcachedef : (c.set now k v).cache =
        if c.max_size <
            (LRUCache.eraseE c.cache k ++ [(k, v, now + c.ttl_seconds)]).length
        then (LRUCache.eraseE c.cache k ++ [(k, v, now + c.ttl_seconds)]).tail
        else LRUCache.eraseE c.cache k ++ [(k, v, now + c.ttl_seconds)] := rfl
    have hll : (LRUCache.eraseE c.cache k ++ [(k, v, now + c.ttl_seconds)]).length =
        (LRUCache.eraseE c.cache k).length + 1 := by simp
    by_cases hov : c.max_size <
        (LRUCache.eraseE c.cache k ++ [(k, v, now + c.ttl_seconds)]).length
    · have hc : (c.set now k v).cache =
          (LRUCache.eraseE c.cache k ++ [(k, v, now + c.ttl_seconds)]).tail := by
        rw [hcachedef, if_pos hov]
      have hlt := List.length_tail (LRUCache.eraseE c.cache k ++ [(k, v, now + c.ttl_seconds)])
      refine ⟨by rw [hc, hlt]; omega, fun _ => ⟨hc, by rw [hc, hlt]; omega⟩⟩
    · have hc : (c.set now k v).cache =
          LRUCache.eraseE c.cache k ++ [(k, v, now + c.ttl_seconds)] := by
        rw [hcachedef, if_neg hov]
      exact ⟨by rw [hc]; omega, fun hov2 => absurd hov2 hov⟩
  · intro κ α _ N ttl now k₀ v₀ rest hrl hnd
    have hnd' : (((k₀, v₀) :: rest).map Prod.fst).Nodup := by simpa using hnd
    have hfresh : ∀ x ∈ ((k₀, v₀) :: rest).map Prod.fst,
        x ∉ (({ max_size := N, ttl_seconds := ttl, cache := [] } :
            LRUCache κ α)).cache.map (fun e => e.1) := by
      intro x _ hx
      simp at hx
    obtain ⟨h1, _, _⟩ := LRUCache.insertAll_fresh now ((k₀, v₀) :: rest)
      ({ max_size := N, ttl_seconds := ttl, cache := [] } : LRUCache κ α)
      hnd' hfresh (by simp)
    have hcache :
        (({ max_size := N, ttl_seconds := ttl, cache := [] } : LRUCache κ α).insertAll
            now ((k₀, v₀) :: rest)).cache =
          rest.map fun kv => (kv.1, kv.2, now + ttl) := by
      rw [h1]
      have hidx : (({ max_size := N, ttl_seconds := ttl, cache := [] } :
            LRUCache κ α)).cache.length + ((k₀, v₀) :: rest).length -
          (({ max_size := N, ttl_seconds := ttl, cache := [] } :
            LRUCache κ α)).max_size = 1 := by
        simp [hrl]
      rw [hidx]
      simp
    obtain ⟨hk0, hnds⟩ := List.nodup_cons.mp hnd
    constructor
    · have hnotmem : k₀ ∉
          ((({ max_size := N, ttl_seconds := ttl, cache := [] } : LRUCache κ α).insertAll
              now ((k₀, v₀) :: rest)).cache.map (fun e => e.1)) := by
        rw [hcache]
        simp only [List.map_map]
        intro hmem
        exact hk0 (by simpa [Function.comp] using hmem)
      simp [LRUCache.get, LRUCache.lookupE_of_not_mem hnotmem]
    · intro i h
      have hlook := LRUCache.lookupE_map_entry (E := now + ttl) rest i h hnds
      have hngt : ¬ now > now + ttl := by omega
      unfold LRUCache.get
      rw [hcache, hlook]
      simp [hngt]

/-- Witness for C6 at capacity 2 with the three keys A, B, C: the
first-inserted key is evicted, the others are readable, and an
at-capacity `set` keeps the size bound. -/
theorem lru_set_capacity_eviction_witness :
    ((({ max_size := 2, ttl_seconds := 5, cache := [] } : LRUCache String Int).insertAll
        0 [("A", 1), ("B", 2), ("C", 3)]).get 0 "A").1 = none ∧
    ((({ max_size := 2, ttl_seconds := 5, cache := [] } : LRUCache String Int).insertAll
        0 [("A", 1), ("B", 2), ("C", 3)]).get 0 "B").1 = some 2 ∧
    ((({ max_size := 1, ttl_seconds := 5, cache := [("X", 9, 7)] } :
        LRUCache String Int).set 0 "Y" 4).cache.length ≤ 1) := by
  obtain ⟨h0, hrest⟩ := lru_set_capacity_eviction.2 String Int 2 5 0 "A" (1 : Int)
    [("B", 2), ("C", 3)] (by decide) (by decide)
  refine ⟨h0, hrest 0 (by decide), ?_⟩
  exact (lru_set_capacity_eviction.1 String Int
    { max_size := 1, ttl_seconds := 5, cache := [("X", 9, 7)] } 0 "Y" 4 (by decide)).1

/-- C7: `get` returns absent on a missing key, returns absent and deletes
the entry when the entry is expired, returns the stored value and moves
the entry to the most-recently-used end on a fresh hit; a value just
`set` is returned by `get` within its TTL (unique keys, capacity ≥ 1);
and at capacity 2, inserting A and B, reading A, then inserting C evicts
B and not A. -/
theorem lru_get_semantics :
    (∀ (κ α : Type) [DecidableEq κ] (c : LRUCache κ α) (now : Nat) (key : κ),
        LRUCache.lookupE c.cache key = none → c.get now key = (none, c)) ∧
    (∀ (κ α : Type) [DecidableEq κ] (c : LRUCache κ α) (now : Nat) (key : κ)
        (v : α) (e : Nat),
        LRUCache.lookupE c.cache key = some (v, e) → now > e →
        c.get now key = (none, { c with cache := LRUCache.eraseE c.cache key })) ∧
    (∀ (κ α : Type) [DecidableEq κ] (c : LRUCache κ α) (now : Nat) (key : κ)
        (v : α) (e : Nat),
        LRUCache.lookupE c.cache key = some (v, e) → ¬ now > e →
        c.get now key =
          (some v, { c with cache := LRUCache.eraseE c.cache key ++ [(key, v, e)] })) ∧
    (∀ (κ α : Type) [DecidableEq κ] (c : LRUCache κ α) (now now2 : Nat) (key : κ)
        (v : α),
        (c.cache.map (fun x => x.1)).Nodup → 1 ≤ c.max_size →
        now2 ≤ now + c.ttl_seconds →
        ((c.set now key v).get now2 key).1 = some v) ∧
    (((((({ max_size := 2, ttl_seconds := 10, cache := [] } :
          LRUCache String Int).set 0 "A" 1).set 0 "B" 2).get 0 "A").2.set 0 "C" 3).get
        0 "B").1 = none ∧
    (((((({ max_size := 2, ttl_seconds := 10, cache := [] } :
          LRUCache String Int).set 0 "A" 1).set 0 "B" 2).get 0 "A").2.set 0 "C" 3).get
        0 "A").1 = some 1 ∧
    (((((({ max_size := 2, ttl_seconds := 10, cache := [] } :
          LRUCache String Int).set 0 "A" 1).set 0 "B" 2).get 0 "A").2.set 0 "C" 3).get
        0 "C").1 = some 3 := by
  refine ⟨?_, ?_, ?_, ?_, by decide, by decide, by decide⟩
  · intro κ α _ c now key h
    simp [LRUCache.get, h]
  · intro κ α _ c now key v e h hgt
    simp [LRUCache.get, h, hgt]
  · intro κ α _ c now key v e h hgt
    simp [LRUCache.get, h, hgt]
  · intro κ α _ c now now2 key v hnd hcap hts
    have hcachedef : (c.set now key v).cache =
        if c.max_size <
            (LRUCache.eraseE c.cache key ++ [(key, v, now + c.ttl_seconds)]).length
        then (LRUCache.eraseE c.cache key ++ [(key, v, now + c.ttl_seconds)]).tail
        else LRUCache.eraseE c.cache key ++ [(key, v, now + c.ttl_seconds)] := rfl
    have hnotmem : key ∉ (LRUCache.eraseE c.cache key).map (fun x => x.1) :=
      LRUCache.not_mem_map_eraseE hnd
    have hlook : LRUCache.lookupE (c.set now key v).cache key =
        some (v, now + c.ttl_seconds) := by
      rw [hcachedef]
      by_cases hov : c.max_size <
          (LRUCache.eraseE c.cache key ++ [(key, v, now + c.ttl_seconds)]).length
      · rw [if_pos hov]
        cases herl : LRUCache.eraseE c.cache key with
        | nil =>
          exfalso
          rw [herl] at hov
          simp at hov
          omega
        | cons hd tl =>
          show LRUCache.lookupE (tl ++ [(key, v, now + c.ttl_seconds)]) key =
            some (v, now + c.ttl_seconds)
          have htl : key ∉ tl.map (fun x => x.1) := by
            rw [herl] at hnotmem
            simp only [List.map_cons, List.mem_cons, not_or] at hnotmem
            exact hnotmem.2
          rw [LRUCache.lookupE_append_of_not_mem htl]
          simp [LRUCache.lookupE]
      · rw [if_neg hov, LRUCache.lookupE_append_of_not_mem hnotmem]
        simp [LRUCache.lookupE]
    have hngt : ¬ now2 > now + c.ttl_seconds := by omega
    simp [LRUCache.get, hlook, hngt]

/-- Witness for C7: each `get` behaviour exercised on a concrete cache,
and a freshly `set` value read back within TTL. -/
theorem lru_get_semantics_witness :
    (({ max_size := 2, ttl_seconds := 10, cache := [] } : LRUCache String Int).get 0 "A" =
      (none, { max_size := 2, ttl_seconds := 10, cache := [] })) ∧
    (({ max_size := 2, ttl_seconds := 10, cache := [("A", 5, 3)] } :
        LRUCache String Int).get 4 "A" =
      (none, { max_size := 2, ttl_seconds := 10, cache := [] })) ∧
    (({ max_size := 2, ttl_seconds := 10, cache := [("A", 5, 3)] } :
        LRUCache String Int).get 3 "A" =
      (some 5, { max_size := 2, ttl_seconds := 10, cache := [("A", 5, 3)] })) ∧
    (((({ max_size := 2, ttl_seconds := 10, cache := [] } :
        LRUCache String Int).set 7 "K" 9).get 8 "K").1 = some 9) := by
  refine ⟨?_, ?_, ?_, ?_⟩
  · exact lru_get_semantics.1 String Int
      { max_size := 2, ttl_seconds := 10, cache := [] } 0 "A" (by decide)
  · exact lru_get_semantics.2.1 String Int
      { max_size := 2, ttl_seconds := 10, cache := [("A", 5, 3)] } 4 "A" 5 3
      (by decide) (by decide)
  · exact lru_get_semantics.2.2.1 String Int
      { max_size := 2, ttl_seconds := 10, cache := [("A", 5, 3)] } 3 "A" 5 3
      (by decide) (by decide)
  · exact lru_get_semantics.2.2.2.1 String Int
      { max_size := 2, ttl_seconds := 10, cache := [] } 7 8 "K" 9
      (by decide) (by decide) (by decide)

/-- C9: for backend HTTP responses below status 400, `_request` returns
the empty JSON object on HTTP 204, and for other sub-400 statuses whose
body is not valid JSON it returns the raw text wrapped under `data`
instead of raising. -/
theorem request_decode_sub400 (resp : HttpResponse) (h : resp.status < 400) :
    (resp.status = 204 → requestOfResponse resp = .ok (Json.obj [])) ∧
    (resp.status ≠ 204 → resp.jsonBody = none →
      requestOfResponse resp = .ok (Json.obj [("data", Json.str resp.text)])) := by
  constructor
  · intro h204
    simp [requestOfResponse, h204]
  · intro hne hb
    have hge : ¬ resp.status ≥ 400 := by omega
    simp [requestOfResponse, hge, hne, hb]

/-- Witness for C9: a 204 response and a 200 response with an unparsable
body. -/
theorem request_decode_sub400_witness :
    requestOfResponse { status := 204, jsonBody := none, text := "" } =
        .ok (Json.obj []) ∧
      requestOfResponse { status := 200, jsonBody := none, text := "oops" } =
        .ok (Json.obj [("data", Json.str "oops")]) :=
  ⟨(request_decode_sub400 { status := 204, jsonBody := none, text := "" }
      (by decide)).1 rfl,
   (request_decode_sub400 { status := 200, jsonBody := none, text := "oops" }
      (by decide)).2 (by decide) rfl⟩

/-! ## Strip lemmas for the normalizer claims -/

theorem dropWhile_self_dropWhile {α : Type} (p : α → Bool) (l : List α) :
    (l.dropWhile p).dropWhile p = l.dropWhile p := by
  induction l with
  | nil => rfl
  | cons a l ih =>
    rw [List.dropWhile_cons]
    by_cases h : p a
    · simp [h, ih]
    · simp [h, List.dropWhile_cons]

theorem length_dropWhile_le {α : Type} (p : α → Bool) (l : List α) :
    (l.dropWhile p).length ≤ l.length := by
  induction l with
  | nil => simp
  | cons a l ih =>
    rw [List.dropWhile_cons]
    split
    · exact Nat.le_trans ih (by simp)
    · simp

theorem dropWhile_eq_self_of_prefix {α : Type} (p : α → Bool) {m d : List α}
    (hpre : m <+: d) (hd : d.dropWhile p = d) : m.dropWhile p = m := by
  cases m with
  | nil => rfl
  | cons a m' =>
    obtain ⟨t, rfl⟩ := hpre
    have hpa : ¬ p a = true := by
      intro hp
      have hlen := congrArg List.length hd
      rw [List.cons_append, List.dropWhile_cons, if_pos hp] at hlen
      have hle := length_dropWhile_le p (m' ++ t)
      rw [hlen] at hle
      simp only [List.length_cons] at hle
      omega
    rw [List.dropWhile_cons, if_neg hpa]

theorem pystripList_idem (l : List Char) :
    pystripList (pystripList l) = pystripList l := by
  have hdd : (l.dropWhile isPySpace).dropWhile isPySpace = l.dropWhile isPySpace :=
    dropWhile_self_dropWhile isPySpace l
  have hxx : (((l.dropWhile isPySpace).reverse.dropWhile isPySpace).dropWhile
        isPySpace) = (l.dropWhile isPySpace).reverse.dropWhile isPySpace :=
    dropWhile_self_dropWhile isPySpace (l.dropWhile isPySpace).reverse
  have hsuf : (l.dropWhile isPySpace).reverse.dropWhile isPySpace <:+
      (l.dropWhile isPySpace).reverse := List.dropWhile_suffix isPySpace
  have hpre : ((l.dropWhile isPySpace).reverse.dropWhile isPySpace).reverse <+:
      l.dropWhile isPySpace := by
    have h1 : (((l.dropWhile isPySpace).reverse.dropWhile isPySpace).reverse).reverse <:+
        (l.dropWhile isPySpace).reverse := by
      simpa using hsuf
    exact List.reverse_suffix.mp h1
  have hm : (((l.dropWhile isPySpace).reverse.dropWhile isPySpace).reverse).dropWhile
        isPySpace = ((l.dropWhile isPySpace).reverse.dropWhile isPySpace).reverse :=
    dropWhile_eq_self_of_prefix isPySpace hpre hdd
  show (((((l.dropWhile isPySpace).reverse.dropWhile isPySpace).reverse).dropWhile
      isPySpace).reverse.dropWhile isPySpace).reverse =
    ((l.dropWhile isPySpace).reverse.dropWhile isPySpace).reverse
  rw [hm, List.reverse_reverse, hxx]

theorem pystrip_idem (s : String) : pystrip (pystrip s) = pystrip s :=
  congrArg String.mk (pystripList_idem s.data)

/-- Normalizing a list of canonical (non-empty, already-stripped) strings
keeps every element unchanged. -/
theorem filterMap_canonical (l : List String)
    (h : ∀ s ∈ l, s ≠ "" ∧ pystrip s = s) :
    (l.map PyVal.str).filterMap (fun d =>
      if pyTruthy d = true ∧ pystrip (pyStr d) ≠ "" then some (pystrip (pyStr d))
      else none) = l := by
  induction l with
  | nil => rfl
  | cons s rest ih =>
    obtain ⟨hne, hstr⟩ := h s (by simp)
    have hcond : pyTruthy (PyVal.str s) = true ∧ pystrip (pyStr (PyVal.str s)) ≠ "" := by
      constructor
      · simpa [pyTruthy] using hne
      · show pystrip s ≠ ""
        rw [hstr]
        exact hne
    simp only [List.map_cons, List.filterMap_cons, if_pos hcond]
    show (pystrip s) :: _ = s :: rest
    rw [hstr, ih (fun x hx => h x (by simp [hx]))]

/-- Every element surviving the normalizer's list branch is a non-empty,
already-stripped string. -/
theorem filterMap_strip_canonical (xs : List PyVal) :
    ∀ s ∈ xs.filterMap (fun d =>
      if pyTruthy d = true ∧ pystrip (pyStr d) ≠ "" then some (pystrip (pyStr d))
      else none), s ≠ "" ∧ pystrip s = s := by
  intro s hs
  rw [List.mem_filterMap] at hs
  obtain ⟨d, _, hd⟩ := hs
  by_cases hc : pyTruthy d = true ∧ pystrip (pyStr d) ≠ ""
  · rw [if_pos hc] at hd
    cases hd
    exact ⟨hc.2, pystrip_idem _⟩
  · rw [if_neg hc] at hd
    cases hd

/-- The retrieval-stage filter keeps every canonical string element. -/
theorem filterMap_filter_canonical (ys : List String)
    (h : ∀ s ∈ ys, s ≠ "" ∧ pystrip s = s) :
    (ys.map PyVal.str).filterMap (fun d =>
      match d with
      | .str s => if s ≠ "" ∧ pystrip s ≠ "" then some s else none
      | _ => none) = ys := by
  induction ys with
  | nil => rfl
  | cons s rest ih =>
    obtain ⟨hne, hstr⟩ := h s (by simp)
    have hcond : s ≠ "" ∧ pystrip s ≠ "" := ⟨hne, by rw [hstr]; exact hne⟩
    have hfa : (fun d => match d with
        | PyVal.str s => if s ≠ "" ∧ pystrip s ≠ "" then some s else none
        | _ => none) (PyVal.str s) = some s := by
      show (if s ≠ "" ∧ pystrip s ≠ "" then some s else none) = some s
      rw [if_pos hcond]
    simp only [List.map_cons, List.filterMap_cons, hfa]
    rw [ih (fun x hx => h x (by simp [hx])), if_pos hcond]

/-- Applying the retrieval-stage re-filter to a canonical string list
keeps it when non-empty and yields absence when empty. -/
theorem filter_ids_canonical (ys : List String)
    (h : ∀ s ∈ ys, s ≠ "" ∧ pystrip s = s) :
    filter_ids (some (ys.map PyVal.str)) = if ys.isEmpty then none else some ys := by
  cases ys with
  | nil => rfl
  | cons y rest =>
    simp only [filter_ids]
    rw [filterMap_filter_canonical (y :: rest) h]
    simp

/-- C4 counterexample: the list `[" "]` has no surviving elements, yet
the normalizer assigns the (empty) filtered list, not absence. -/
theorem normalize_list_empty_counterexample :
    normalize_ids (PyVal.list [PyVal.str " "]) = some [] ∧
      normalize_ids (PyVal.list [PyVal.str " "]) ≠ none :=
  ⟨by decide, by decide⟩

/-- C4 (amended): for a non-empty list input the normalizer keeps exactly
the elements that are truthy and non-blank after string-coercion and
stripping; when no elements survive the normalizer itself yields the
empty list (not absence), and it is the retrieval stage's re-filter that
then treats the empty list as no filter; when elements survive, the
re-filter passes them through unchanged. -/
theorem normalize_list_keeps_filtered (xs : List PyVal) (hne : xs ≠ []) :
    normalize_ids (.list xs) =
      some (xs.filterMap fun d =>
        if pyTruthy d = true ∧ pystrip (pyStr d) ≠ "" then some (pystrip (pyStr d))
        else none) ∧
    ((xs.filterMap fun d =>
        if pyTruthy d = true ∧ pystrip (pyStr d) ≠ "" then some (pystrip (pyStr d))
        else none) = [] →
      filter_ids ((normalize_ids (.list xs)).map (List.map PyVal.str)) = none) ∧
    ((xs.filterMap fun d =>
        if pyTruthy d = true ∧ pystrip (pyStr d) ≠ "" then some (pystrip (pyStr d))
        else none) ≠ [] →
      filter_ids ((normalize_ids (.list xs)).map (List.map PyVal.str)) =
        some (xs.filterMap fun d =>
          if pyTruthy d = true ∧ pystrip (pyStr d) ≠ "" then some (pystrip (pyStr d))
          else none)) := by
  have htr : pyTruthy (PyVal.list xs) = true := by
    cases xs with
    | nil => exact absurd rfl hne
    | cons a l => simp [pyTruthy]
  have h1 : normalize_ids (.list xs) =
      some (xs.filterMap fun d =>
        if pyTruthy d = true ∧ pystrip (pyStr d) ≠ "" then some (pystrip (pyStr d))
        else none) := by
    simp [normalize_ids, htr]
  refine ⟨h1, ?_, ?_⟩
  · intro hempty
    rw [h1, hempty]
    rfl
  · intro hne2
    rw [h1]
    show filter_ids (some ((xs.filterMap _).map PyVal.str)) = _
    rw [filter_ids_canonical _ (filterMap_strip_canonical xs)]
    simp only [List.isEmpty_iff]
    rw [if_neg hne2]

/-- C4 witness: one blank element is dropped, one real identifier is kept
and stripped; a list of only blanks flows through the re-filter to no
filter at all. -/
theorem normalize_list_keeps_filtered_witness :
    normalize_ids (PyVal.list [PyVal.str " ", PyVal.str " a "]) = some ["a"] ∧
    filter_ids ((normalize_ids (PyVal.list [PyVal.str " "])).map
      (List.map PyVal.str)) = none := by
  constructor
  · rw [(normalize_list_keeps_filtered [PyVal.str " ", PyVal.str " a "] (by decide)).1]
    decide
  · exact (normalize_list_keeps_filtered [PyVal.str " "] (by decide)).2.1 (by decide)

/-- C5 counterexample: the string `"null"` is handled by the string
branch, which never consults the empty-like literal forms, so it
normalizes to `["null"]`, not absence. -/
theorem normalize_null_string_counterexample :
    normalize_ids (PyVal.str "null") = some ["null"] ∧
      normalize_ids (PyVal.str "null") ≠ none :=
  ⟨by decide, by decide⟩

/-- C5 (amended): normalizing a non-empty canonical list of trimmed,
non-empty identifier strings returns that same list, and None, the empty
string and the empty list normalize to absent — but the string "null"
normalizes to `["null"]`: the case-insensitive empty-like literal check
applies only to values that are neither strings nor lists. -/
theorem normalize_idempotent_on_canonical (l : List String) (hne : l ≠ [])
    (hcanon : ∀ s ∈ l, s ≠ "" ∧ pystrip s = s) :
    normalize_ids (.list (l.map PyVal.str)) = some l ∧
    normalize_ids PyVal.none = none ∧
    normalize_ids (.str "") = none ∧
    normalize_ids (.list []) = none ∧
    normalize_ids (.str "null") = some ["null"] := by
  refine ⟨?_, by decide, by decide, by decide, by decide⟩
  have htr : pyTruthy (PyVal.list (l.map PyVal.str)) = true := by
    cases l with
    | nil => exact absurd rfl hne
    | cons a t => simp [pyTruthy]
  simp only [normalize_ids, htr]
  simp only [Bool.true_eq_false, if_false]
  rw [filterMap_canonical l hcanon]

/-- C5 witness: a concrete canonical two-identifier list returns
unchanged. -/
theorem normalize_idempotent_on_canonical_witness :
    normalize_ids (.list [PyVal.str "a", PyVal.str "b"]) = some ["a", "b"] :=
  (normalize_idempotent_on_canonical ["a", "b"] (by decide) (by decide)).1

/-! ## Concrete fixtures for the orchestrator claims -/

/-- The connector's caches as built by `RAGFlowConnector.__init__`. -/
def emptyCaches : Caches :=
  { dataset_cache := { max_size := 32, ttl_seconds := 300, cache := [] }
    document_cache := { max_size := 128, ttl_seconds := 300, cache := [] } }

/-- A backend with no datasets whose every other call fails. -/
def envPostError : Env :=
  { listResp := .ok (.obj [("code", .num 0), ("data", .arr [])])
    infoResp := fun _ => .error "conn"
    docsResp := fun _ => .error "conn"
    postResp := fun _ => .error "boom" }

/-- A backend whose retrieval envelope reports `code=1, message="boom"`. -/
def envCode1 : Env :=
  { envPostError with
    postResp := fun _ => .ok (.obj [("code", .num 1), ("message", .str "boom")]) }

/-- A call scoped to dataset `d1`. -/
def argsD1 : Args := { question := "q", dataset_ids := some [.str "d1"] }

/-- C2: when the caller supplies no usable dataset filter and dataset
listing comes back empty, retrieval returns the no-datasets result — an
empty chunk list, a non-empty error, the attempted API URL as a
diagnostic — with the caches untouched, and the only backend call made is
the dataset listing: the retrieval POST is never issued. -/
theorem retrieval_no_datasets (apiUrl : String) (env : Env) (now : Nat) (st : Caches)
    (a : Args) (h1 : filter_ids a.dataset_ids = none)
    (h2 : list_datasets env = Json.arr []) :
    retrieval apiUrl env now st a =
      (noDatasetsJson a.question apiUrl, st, [Call.listDatasets]) ∧
    jgetD (noDatasetsJson a.question apiUrl) "chunks" .null = Json.arr [] ∧
    jgetD (noDatasetsJson a.question apiUrl) "error" .null =
      Json.str "No datasets available in RAGFlow backend" ∧
    jgetD (jgetD (noDatasetsJson a.question apiUrl) "debug" .null) "api_url" .null =
      Json.str apiUrl ∧
    (∀ p, Call.retrievalPost p ∉ [Call.listDatasets]) := by
  refine ⟨?_, rfl, rfl, rfl, by intro p; simp⟩
  unfold retrieval retrievalBody resolveScope
  rw [h1, h2]
  simp [jTruthy]

/-- Witness for C2: a concrete empty-dataset backend. -/
theorem retrieval_no_datasets_witness :
    retrieval "http://h/api/v1" envPostError 0 emptyCaches { question := "anything" } =
      (noDatasetsJson "anything" "http://h/api/v1", emptyCaches, [Call.listDatasets]) :=
  (retrieval_no_datasets "http://h/api/v1" envPostError 0 emptyCaches
    { question := "anything" } (by decide) (by decide)).1

/-- C3: when the retrieval envelope carries a non-zero code, the result is
the backend-error dict: the envelope's message as `error`, an empty chunk
list, the caller's question echoed, and a pagination block holding the
requested page and page size with both totals zero. -/
theorem retrieval_backend_error (apiUrl : String) (env : Env) (now : Nat) (st : Caches)
    (a : Args) (vids : List String) (efs : List (String × Json))
    (h1 : filter_ids a.dataset_ids = some vids)
    (h2 : env.postResp (mkPayload a (vids.map Json.str) (filter_ids a.document_ids)) =
      .ok (Json.obj efs))
    (h3 : isZero (jgetD (Json.obj efs) "code" Json.null) = false) :
    (retrieval apiUrl env now st a).1 =
      backendErrJson a
        (jgetD (Json.obj efs) "message" (Json.str "Unknown error from RAGFlow")) ∧
    jgetD (backendErrJson a
        (jgetD (Json.obj efs) "message" (Json.str "Unknown error from RAGFlow")))
      "chunks" .null = Json.arr [] ∧
    jgetD (backendErrJson a
        (jgetD (Json.obj efs) "message" (Json.str "Unknown error from RAGFlow")))
      "pagination" .null = pagRequested a.page a.page_size := by
  refine ⟨?_, rfl, rfl⟩
  unfold retrieval retrievalBody resolveScope
  rw [h1]
  simp only []
  rw [h2]
  simp [h3]

/-- Witness for C3: envelope `code=1, message="boom"` yields `error =
"boom"` with zeroed pagination at the requested page/page size. -/
theorem retrieval_backend_error_witness :
    (retrieval "u" envCode1 0 emptyCaches argsD1).1 =
      backendErrJson argsD1 (Json.str "boom") :=
  (retrieval_backend_error "u" envCode1 0 emptyCaches argsD1 ["d1"]
    [("code", .num 1), ("message", .str "boom")] (by decide) rfl (by decide)).1

/-- C1 (amended): any exception escaping any stage of the retrieval body
is caught at the orchestrator boundary and converted into a result dict
with `chunks: []`, the caller's question, zeroed pagination, and an
`error` field holding the exception's message prefixed with
`Retrieval failed: ` (not the bare message); the orchestrator itself is a
total function and never re-raises. -/
theorem retrieval_error_boundary (apiUrl : String) (env : Env) (now : Nat)
    (st : Caches) (a : Args) (m : String) (st1 : Caches) (lg : List Call)
    (h : retrievalBody apiUrl env now st a = (.error m, st1, lg)) :
    retrieval apiUrl env now st a = (errorBoundaryJson a m, st1, lg) ∧
    jgetD (errorBoundaryJson a m) "chunks" .null = Json.arr [] ∧
    jgetD (errorBoundaryJson a m) "error" .null =
      Json.str ("Retrieval failed: " ++ m) ∧
    jgetD (errorBoundaryJson a m) "pagination" .null =
      pagRequested a.page a.page_size := by
  refine ⟨?_, rfl, rfl, rfl⟩
  unfold retrieval
  rw [h]

/-- C1 counterexample: a POST raising `RuntimeError("boom")` produces an
`error` field of "Retrieval failed: boom", not the bare exception message
"boom". -/
theorem retrieval_error_boundary_counterexample :
    jgetD (retrieval "u" envPostError 0 emptyCaches argsD1).1 "error" Json.null =
        Json.str "Retrieval failed: boom" ∧
      jgetD (retrieval "u" envPostError 0 emptyCaches argsD1).1 "error" Json.null ≠
        Json.str "boom" :=
  ⟨by decide, by decide⟩

/-- Witness for C1: the concrete failing POST flows through the boundary
handler. -/
theorem retrieval_error_boundary_witness :
    retrieval "u" envPostError 0 emptyCaches argsD1 =
      (errorBoundaryJson argsD1 "boom", emptyCaches,
       [Call.retrievalPost (mkPayload argsD1 [Json.str "d1"] none)]) :=
  (retrieval_error_boundary "u" envPostError 0 emptyCaches argsD1 "boom"
    emptyCaches [Call.retrievalPost (mkPayload argsD1 [Json.str "d1"] none)]
    (by rfl)).1

/-- The fetch path of `get_documents` issues exactly one HTTP call,
whatever the backend answers. -/
theorem fetch_documents_log (env : Env) (now : Nat) (st : Caches) (dsid : Json) :
    (fetch_documents env now st dsid).2.2 = [Call.getDocs dsid] := by
  unfold fetch_documents
  repeat' split
  all_goals rfl

/-- C10: a document listing that yields an empty map is stored in the
document cache but returned as an empty result; a later lookup that finds
the cached empty map treats it as a miss (the hit check requires a truthy
value) and contacts the backend again; only a cached non-empty map is a
real hit, served without any backend call. -/
theorem get_documents_empty_map_caching :
    (∀ (env : Env) (now : Nat) (st : Caches) (dsid : Json)
        (rfs dfs : List (String × Json)) (docs : List Json),
        (st.document_cache.get now dsid).1 = none →
        env.docsResp dsid = .ok (Json.obj rfs) →
        isZero (jgetD (Json.obj rfs) "code" .null) = true →
        jgetD (Json.obj rfs) "data" (.obj []) = .obj dfs →
        jgetD (.obj dfs) "docs" (.arr []) = .arr docs →
        buildDocsDict docs [] = .ok [] →
        get_documents env now st dsid =
          ([], { st with document_cache :=
              ((st.document_cache.get now dsid).2).set now dsid [] },
           [Call.getDocs dsid])) ∧
    (∀ (env : Env) (now : Nat) (st : Caches) (dsid : Json),
        (st.document_cache.get now dsid).1 = some [] →
        (get_documents env now st dsid).2.2 = [Call.getDocs dsid]) ∧
    (∀ (env : Env) (now : Nat) (st : Caches) (dsid : Json)
        (m : List (Json × Json)),
        (st.document_cache.get now dsid).1 = some m → m ≠ [] →
        (get_documents env now st dsid).1 = m ∧
        (get_documents env now st dsid).2.2 = []) := by
  refine ⟨?_, ?_, ?_⟩
  · intro env now st dsid rfs dfs docs hmiss hresp hcode hdata hdocs hbuild
    have hpair : st.document_cache.get now dsid =
        (none, (st.document_cache.get now dsid).2) := by
      have h0 : st.document_cache.get now dsid =
          ((st.document_cache.get now dsid).1, (st.document_cache.get now dsid).2) := rfl
      rw [h0, hmiss]
    unfold get_documents
    rw [hpair]
    show fetch_documents env now
      { st with document_cache := (st.document_cache.get now dsid).2 } dsid = _
    unfold fetch_documents
    rw [hresp]
    dsimp only
    rw [if_neg (by rw [hcode]; simp), hdata]
    dsimp only
    rw [hdocs]
    dsimp only
    rw [hbuild]
  · intro env now st dsid hsome
    have hpair : st.document_cache.get now dsid =
        (some [], (st.document_cache.get now dsid).2) := by
      have h0 : st.document_cache.get now dsid =
          ((st.document_cache.get now dsid).1, (st.document_cache.get now dsid).2) := rfl
      rw [h0, hsome]
    unfold get_documents
    rw [hpair]
    show (fetch_documents env now
      { st with document_cache := (st.document_cache.get now dsid).2 } dsid).2.2 = _
    exact fetch_documents_log env now _ dsid
  · intro env now st dsid m hsome hne
    have hpair : st.document_cache.get now dsid =
        (some m, (st.document_cache.get now dsid).2) := by
      have h0 : st.document_cache.get now dsid =
          ((st.document_cache.get now dsid).1, (st.document_cache.get now dsid).2) := rfl
      rw [h0, hsome]
    unfold get_documents
    rw [hpair]
    have hie : m.isEmpty = false := by
      cases m with
      | nil => exact absurd rfl hne
      | cons a t => rfl
    simp [hie]

/-- The witness backend that lists no documents for any dataset. -/
def envDocsEmpty : Env :=
  { envPostError with
    docsResp := fun _ =>
      .ok (.obj [("code", .num 0), ("data", .obj [("docs", .arr [])])]) }

/-- Connector caches holding the given document-cache entries. -/
def cachesWithDocs (entries : List (Json × List (Json × Json) × Nat)) : Caches :=
  { dataset_cache := { max_size := 32, ttl_seconds := 300, cache := [] }
    document_cache := { max_size := 128, ttl_seconds := 300, cache := entries } }

/-- Witness for C10: an empty listing is cached as the empty map, a
cached empty map triggers a refetch, and a cached non-empty map is
served with no backend call. -/
theorem get_documents_empty_map_caching_witness :
    get_documents envDocsEmpty 0 emptyCaches (Json.str "d1") =
      ([], cachesWithDocs [(Json.str "d1", [], 300)],
       [Call.getDocs (Json.str "d1")]) ∧
    (get_documents envPostError 5 (cachesWithDocs [(Json.str "d1", [], 300)])
        (Json.str "d1")).2.2 = [Call.getDocs (Json.str "d1")] ∧
    (get_documents envPostError 5
        (cachesWithDocs [(Json.str "d1", [(Json.str "x", Json.obj [])], 300)])
        (Json.str "d1")).1 = [(Json.str "x", Json.obj [])] := by
  refine ⟨?_, ?_, ?_⟩
  · exact get_documents_empty_map_caching.1 envDocsEmpty 0 emptyCaches
      (Json.str "d1") [("code", .num 0), ("data", .obj [("docs", .arr [])])]
      [("docs", .arr [])] [] (by decide) rfl (by decide) (by decide) (by decide) rfl
  · exact get_documents_empty_map_caching.2.1 envPostError 5
      (cachesWithDocs [(Json.str "d1", [], 300)]) (Json.str "d1") (by decide)
  · exact (get_documents_empty_map_caching.2.2 envPostError 5
      (cachesWithDocs [(Json.str "d1", [(Json.str "x", Json.obj [])], 300)])
      (Json.str "d1") [(Json.str "x", Json.obj [])] (by decide) (by decide)).1

/-! ## Enrichment lemmas -/

theorem enrichApply_none (c : Json) : enrichApply c none none none = c := by
  cases c <;> rfl

/-- Enriching a dict chunk always succeeds and only ever applies the
three optional field assignments to the chunk. -/
theorem enrichChunk_shape (env : Env) (now : Nat) (st : Caches)
    (fs : List (String × Json)) :
    ∃ (dn nm mt : Option Json) (st2 : Caches) (lg : List Call),
      enrichChunk env now st (Json.obj fs) =
        (.ok (enrichApply (Json.obj fs) dn nm mt), st2, lg) := by
  simp only [enrichChunk]
  rcases h1 : enrichStep1 env now st (chunkDatasetId (Json.obj fs)) with ⟨dn, st1, lg1⟩
  dsimp only
  by_cases hcond : jTruthy (chunkDatasetId (Json.obj fs)) = true ∧
      jTruthy (jgetD (Json.obj fs) "document_id" Json.null) = true
  · rw [if_pos hcond]
    cases h3 : jassoc (get_documents env now st1 (chunkDatasetId (Json.obj fs))).1
        (jgetD (Json.obj fs) "document_id" Json.null) with
    | some meta =>
      exact ⟨dn, some (jgetD meta "name" (.str "")), some meta, _, _, rfl⟩
    | none => exact ⟨dn, none, none, _, _, rfl⟩
  · rw [if_neg hcond]
    exact ⟨dn, none, none, st1, lg1, rfl⟩

/-- The enrichment loop maps a list of dict chunks to a list of the same
length, element-wise and in order. -/
theorem enrichAll_shape (env : Env) (now : Nat) :
    ∀ (cs : List Json) (st : Caches),
      (∀ c ∈ cs, isJObj c = true) →
      ∃ (out : List Json) (st2 : Caches) (lg : List Call),
        enrichAll env now st cs = (.ok out, st2, lg) ∧
        out.length = cs.length ∧
        ∀ (i : Nat) (h1 : i < cs.length) (h2 : i < out.length),
          ∃ dn nm mt, out.get ⟨i, h2⟩ = enrichApply (cs.get ⟨i, h1⟩) dn nm mt
  | [], st, _ => ⟨[], st, [], rfl, rfl, fun i h1 => absurd h1 (by simp)⟩
  | c :: rest, st, hobj => by
    have hc : isJObj c = true := hobj c (by simp)
    obtain ⟨fs, rfl⟩ : ∃ fs, c = Json.obj fs := by
      cases c <;> simp [isJObj] at hc ⊢
    obtain ⟨dn, nm, mt, st1, lg1, h1⟩ := enrichChunk_shape env now st fs
    obtain ⟨out, st2, lg2, h2, hlen, hrel⟩ :=
      enrichAll_shape env now rest st1 (fun x hx => hobj x (by simp [hx]))
    refine ⟨enrichApply (Json.obj fs) dn nm mt :: out, st2, lg1 ++ lg2, ?_,
      by simp [hlen], ?_⟩
    · unfold enrichAll
      rw [h1]
      dsimp only
      rw [h2]
      rfl
    · intro i hi1 hi2
      cases i with
      | zero => exact ⟨dn, nm, mt, rfl⟩
      | succ j =>
        exact hrel j (by simpa using hi1) (by simpa using hi2)

/-- The success path returns the enriched chunks element-wise, in order,
when the arithmetic on `total` and `page_size` goes through. -/
theorem handleSuccess_chunks (env : Env) (now : Nat) (st : Caches) (a : Args)
    (ids : List Json) (dfs : List (String × Json)) (cs : List Json) (tcI : Int)
    (hch : jgetD (Json.obj dfs) "chunks" (.arr []) = Json.arr cs)
    (hne : cs ≠ [])
    (hobj : ∀ c ∈ cs, isJObj c = true)
    (htot : toArith (jgetD (Json.obj dfs) "total" (.num (cs.length : Int))) = .ok tcI)
    (hps : a.page_size ≠ 0) :
    ∃ out st2 lg,
      handleSuccess env now st a ids (Json.obj dfs) =
        (.ok (successJson a (Json.obj dfs) out
          (jgetD (Json.obj dfs) "total" (.num (cs.length : Int)))
          (Int.fdiv (tcI + a.page_size - 1) a.page_size) ids), st2, lg) ∧
      out.length = cs.length ∧
      ∀ (i : Nat) (h1 : i < cs.length) (h2 : i < out.length),
        ∃ dn nm mt, out.get ⟨i, h2⟩ = enrichApply (cs.get ⟨i, h1⟩) dn nm mt := by
  unfold handleSuccess
  rw [hch]
  have htr : jTruthy (Json.arr cs) = true := by
    cases cs with
    | nil => exact absurd rfl hne
    | cons x t => simp [jTruthy]
  rw [if_neg (by simp [htr])]
  dsimp only
  obtain ⟨out, st2, lg2, he, hlen, hrel⟩ := enrichAll_shape env now cs st hobj
  rw [he]
  dsimp only
  rw [htot]
  dsimp only
  rw [if_neg hps]
  exact ⟨out, st2, lg2, rfl, hlen, hrel⟩

/-- C8: enrichment is an order-preserving, element-wise transformation —
one output chunk per input chunk, each equal to its input except for the
optional `dataset_name`, `document_name` and `document_metadata`
assignments — and a chunk whose metadata lookups fail is passed through
completely unmodified rather than dropped. -/
theorem retrieval_enrichment_elementwise :
    (∀ (apiUrl : String) (env : Env) (now : Nat) (st : Caches) (a : Args)
        (vids : List String) (efs dfs : List (String × Json)) (cs : List Json)
        (tcI : Int),
        filter_ids a.dataset_ids = some vids →
        env.postResp (mkPayload a (vids.map Json.str) (filter_ids a.document_ids)) =
          .ok (Json.obj efs) →
        isZero (jgetD (Json.obj efs) "code" Json.null) = true →
        jgetD (Json.obj efs) "data" (.obj []) = .obj dfs →
        jgetD (Json.obj dfs) "chunks" (.arr []) = Json.arr cs →
        cs ≠ [] →
        (∀ c ∈ cs, isJObj c = true) →
        toArith (jgetD (Json.obj dfs) "total" (.num (cs.length : Int))) = .ok tcI →
        a.page_size ≠ 0 →
        ∃ out,
          jgetD (retrieval apiUrl env now st a).1 "chunks" Json.null = Json.arr out ∧
          out.length = cs.length ∧
          ∀ (i : Nat) (h1 : i < cs.length) (h2 : i < out.length),
            ∃ dn nm mt, out.get ⟨i, h2⟩ = enrichApply (cs.get ⟨i, h1⟩) dn nm mt) ∧
    (∀ (env : Env) (now : Nat) (st : Caches) (fs : List (String × Json)),
        (jTruthy (chunkDatasetId (Json.obj fs)) = true →
          (get_dataset_info env now st (chunkDatasetId (Json.obj fs))).1 = none) →
        (jTruthy (jgetD (Json.obj fs) "document_id" Json.null) = false ∨
          jassoc (get_documents env now
              (get_dataset_info env now st (chunkDatasetId (Json.obj fs))).2.1
              (chunkDatasetId (Json.obj fs))).1
            (jgetD (Json.obj fs) "document_id" Json.null) = none) →
        (enrichChunk env now st (Json.obj fs)).1 = .ok (Json.obj fs)) := by
  constructor
  · intro apiUrl env now st a vids efs dfs cs tcI h1 h2 hcode hdata hch hne hobj htot hps
    unfold retrieval retrievalBody resolveScope
    rw [h1]
    dsimp only
    rw [h2]
    dsimp only
    rw [if_neg (by simp [hcode]), hdata]
    dsimp only
    obtain ⟨out, st2, lg2, hh, hlen, hrel⟩ :=
      handleSuccess_chunks env now
        (if a.force_refresh then
          { dataset_cache := st.dataset_cache.clear,
            document_cache := st.document_cache.clear }
         else st) a (vids.map Json.str) dfs cs tcI hch hne hobj htot hps
    rw [hh]
    exact ⟨out, rfl, hlen, hrel⟩
  · intro env now st fs hinfo hdoc
    simp only [enrichChunk]
    by_cases hds : jTruthy (chunkDatasetId (Json.obj fs)) = true
    · rcases hgdi : get_dataset_info env now st (chunkDatasetId (Json.obj fs)) with
        ⟨oinf, st1, lg1⟩
      have hoinf : oinf = none := by
        have := hinfo hds
        rw [hgdi] at this
        exact this
      subst hoinf
      have hstep : enrichStep1 env now st (chunkDatasetId (Json.obj fs)) =
          (none, st1, lg1) := by
        unfold enrichStep1
        rw [if_pos hds, hgdi]
      rw [hstep]
      dsimp only
      by_cases hdid : jTruthy (jgetD (Json.obj fs) "document_id" Json.null) = true
      · rw [if_pos ⟨hds, hdid⟩]
        rcases hgd : get_documents env now st1 (chunkDatasetId (Json.obj fs)) with
          ⟨docs, st2, lg2⟩
        have hlookup : jassoc docs (jgetD (Json.obj fs) "document_id" Json.null) =
            none := by
          rcases hdoc with hfalse | hnone
          · rw [hdid] at hfalse
            cases hfalse
          · rw [hgdi] at hnone
            dsimp only at hnone
            rw [hgd] at hnone
            exact hnone
        dsimp only
        rw [hlookup]
        dsimp only
        rw [enrichApply_none]
      · rw [if_neg (by intro hand; exact hdid hand.2)]
        dsimp only
        rw [enrichApply_none]
    · have hstep : enrichStep1 env now st (chunkDatasetId (Json.obj fs)) =
          (none, st, []) := by
        unfold enrichStep1
        rw [if_neg hds]
      rw [hstep]
      dsimp only
      rw [if_neg (by intro hand; exact hds hand.1)]
      dsimp only
      rw [enrichApply_none]

/-- The witness backend: three chunks in order, all metadata lookups
failing. -/
def envChunks3 : Env :=
  { envPostError with
    postResp := fun _ => .ok (.obj [("code", .num 0),
      ("data", .obj [("chunks", .arr [
        .obj [("content", .str "C"), ("dataset_id", .str "dC")],
        .obj [("content", .str "A")],
        .obj [("content", .str "B"), ("dataset_id", .str "dB"),
          ("document_id", .str "doc1")]]),
        ("total", .num 3)])]) }

/-- Witness for C8: the three-chunk retrieval yields exactly three output
chunks, and a chunk whose dataset lookup fails is passed through
unmodified. -/
theorem retrieval_enrichment_elementwise_witness :
    (∃ out,
        jgetD (retrieval "u" envChunks3 0 emptyCaches argsD1).1 "chunks" Json.null =
          Json.arr out ∧ out.length = 3) ∧
    (enrichChunk envPostError 0 emptyCaches
        (Json.obj [("content", Json.str "c"), ("dataset_id", Json.str "d")])).1 =
      .ok (Json.obj [("content", Json.str "c"), ("dataset_id", Json.str "d")]) := by
  constructor
  · obtain ⟨out, hch, hlen, _⟩ := retrieval_enrichment_elementwise.1 "u" envChunks3 0
      emptyCaches argsD1 ["d1"]
      [("code", .num 0),
       ("data", .obj [("chunks", .arr [
         .obj [("content", .str "C"), ("dataset_id", .str "dC")],
         .obj [("content", .str "A")],
         .obj [("content", .str "B"), ("dataset_id", .str "dB"),
           ("document_id", .str "doc1")]]),
         ("total", .num 3)])]
      [("chunks", .arr [
         .obj [("content", .str "C"), ("dataset_id", .str "dC")],
         .obj [("content", .str "A")],
         .obj [("content", .str "B"), ("dataset_id", .str "dB"),
           ("document_id", .str "doc1")]]),
       ("total", .num 3)]
      [.obj [("content", .str "C"), ("dataset_id", .str "dC")],
       .obj [("content", .str "A")],
       .obj [("content", .str "B"), ("dataset_id", .str "dB"),
         ("document_id", .str "doc1")]]
      3 (by decide) rfl (by decide) (by decide) (by decide) (by decide) (by decide)
      rfl (by decide)
    exact ⟨out, hch, by simpa using hlen⟩
  · exact retrieval_enrichment_elementwise.2 envPostError 0 emptyCaches
      [("content", Json.str "c"), ("dataset_id", Json.str "d")]
      (fun _ => by decide) (Or.inl (by decide))

end RagflowMCP
